import Mathlib

/-!
Shallow embedding of `wacryptolib/escrow.py` (the escrow/trustee API) together with
the narrow keystore and key-primitive interface it consumes.

The escrow module itself (`EscrowApi`, `ReadonlyEscrowApi`,
`generate_keypair_for_storage`, `generate_free_keypair_for_least_provisioned_key_algo`)
is translated directly from the source.  Its collaborators (`KeyStorageBase`
operations, `generate_keypair`, `load_asymmetric_key_from_pem_bytestring`,
`sign_message`, `_decrypt_via_rsa_oaep`) live in modules that are out of the
analysed sources; they are modelled from the specification's description of the
keystore interface and the error taxonomy.

Conventions: keychain UIDs are `Nat`, key algorithms are `String`, messages are
`List Nat` (byte strings where only length and identity matter), PEM bytestrings
of public keys are abstracted to `Nat` identifiers, and Python exceptions become
an explicit error type carried by `Except`.  Stateful methods return their
(possibly updated) keystore next to the `Except` result, so that state on an
exception path is observable, as it is in Python.
-/

/-- The wacryptolib error taxonomy (spec section 7), plus Python's own
`ValueError` and `AssertionError` which the escrow module raises directly. -/
inductive WAErr where
  | keyDoesNotExist (msg : String)
  | keyAlreadyExists (msg : String)
  | keyLoadingError (msg : String)
  | decryptionError (msg : String)
  | authorizationError (msg : String)
  | valueError (msg : String)
  | assertionError (msg : String)
  deriving Repr, DecidableEq

/-- Modelled from the spec: a serialized private key PEM bytestring.  The actual
key material is abstracted to `key_id`; `protection` is the passphrase the PEM
is encrypted with (`none` = unencrypted key). -/
structure PrivateKeyPem where
  protection : Option String
  key_id : Nat
  deriving Repr, DecidableEq

/-- A serialized asymmetric keypair, as produced by `generate_keypair(serialize=True)`:
public part (abstract PEM bytes) and private part. -/
structure AsymKeypair where
  public_key : Nat
  private_key : PrivateKeyPem
  deriving Repr, DecidableEq

/-- Modelled from the spec: `load_asymmetric_key_from_pem_bytestring(key_pem, key_algo,
passphrase)` decodes a private key PEM, raising `KeyLoadingError` when it cannot
(typically a wrong or missing passphrase).  Following the underlying PyCryptodome
convention, a supplied passphrase is only consulted when the key is actually
protected, so an unencrypted key loads under any passphrase, while a protected
key loads only under its own passphrase.  Returns the loaded key object
(abstracted to the key identifier).  `key_algo` only selects the decoder and is
irrelevant here. -/
def load_asymmetric_key_from_pem_bytestring (key_pem : PrivateKeyPem) (key_algo : String)
    (passphrase : Option String) : Except WAErr Nat :=
  if key_pem.protection = none ∨ key_pem.protection = passphrase then
    .ok key_pem.key_id
  else
    .error (.keyLoadingError ("Failed loading " ++ key_algo ++ " key from pem bytestring"))

/-- Modelled from the spec: `generate_keypair(key_algo, serialize=True, passphrase)`
generates a fresh serialized keypair whose private part is protected by
`passphrase` when one is given.  Key material is abstracted to identifiers
derived from the algorithm name. -/
def generate_keypair (key_algo : String) (passphrase : Option String) : AsymKeypair :=
  { public_key := 2 * key_algo.length
    private_key := { protection := passphrase, key_id := 2 * key_algo.length + 1 } }

/-- Modelled from the spec: `sign_message(message, signature_algo, key)` returns a
signature structure over the message; abstracted to a record of its inputs. -/
structure SignatureResult where
  signed_message : List Nat
  signature_algo : String
  signer_key_id : Nat
  deriving Repr, DecidableEq

/-- Modelled from the spec: see `SignatureResult`. -/
def sign_message (message : List Nat) (signature_algo : String) (key : Nat) : SignatureResult :=
  { signed_message := message, signature_algo := signature_algo, signer_key_id := key }

/-- Modelled from the spec: `_decrypt_via_rsa_oaep(cipherdict, key_dict)` decrypts the
cipherdict with the loaded private key; abstracted to an injective pairing of the
ciphertext with the key identifier. -/
def decrypt_via_rsa_oaep (cipherdict : Nat) (key : Nat) : Nat :=
  Nat.pair cipherdict key

/-- Modelled from the spec (section 4.A): the keystore persists keypairs per
`(keychain_uid, key_algo)` and keeps a pool of free pregenerated keypairs per
algorithm.  Represented as association lists; the order of `free_keypairs`
is the order free keys were added. -/
structure KeyStorage where
  keys : List ((Nat × String) × AsymKeypair)
  free_keypairs : List (String × AsymKeypair)
  deriving Repr, DecidableEq

/-- Lookup of the keypair stored under `(keychain_uid, key_algo)`, if any. -/
def KeyStorage.lookupKeys (ks : KeyStorage) (keychain_uid : Nat) (key_algo : String) :
    Option AsymKeypair :=
  (ks.keys.find? (fun e => e.1 = (keychain_uid, key_algo))).map (fun e => e.2)

/-- Modelled from the spec: `get_public_key` fails with `KeyDoesNotExist` when absent. -/
def KeyStorage.get_public_key (ks : KeyStorage) (keychain_uid : Nat) (key_algo : String) :
    Except WAErr Nat :=
  match ks.lookupKeys keychain_uid key_algo with
  | some kp => .ok kp.public_key
  | none => .error (.keyDoesNotExist ("Public key not found for " ++ key_algo))

/-- Modelled from the spec: `get_private_key` fails with `KeyDoesNotExist` when absent. -/
def KeyStorage.get_private_key (ks : KeyStorage) (keychain_uid : Nat) (key_algo : String) :
    Except WAErr PrivateKeyPem :=
  match ks.lookupKeys keychain_uid key_algo with
  | some kp => .ok kp.private_key
  | none => .error (.keyDoesNotExist ("Private key not found for " ++ key_algo))

/-- Modelled from the spec: `set_keys` fails with `KeyAlreadyExists` on a second
write for the same `(keychain_uid, key_algo)`, and leaves the store unchanged then. -/
def KeyStorage.set_keys (ks : KeyStorage) (keychain_uid : Nat) (key_algo : String)
    (public_key : Nat) (private_key : PrivateKeyPem) : Except WAErr KeyStorage :=
  match ks.lookupKeys keychain_uid key_algo with
  | some _ => .error (.keyAlreadyExists ("Keypair already exists for " ++ key_algo))
  | none =>
      .ok { ks with
            keys := ((keychain_uid, key_algo),
                     { public_key := public_key, private_key := private_key }) :: ks.keys }

/-- Modelled from the spec: number of free keypairs available for `key_algo`. -/
def KeyStorage.get_free_keypairs_count (ks : KeyStorage) (key_algo : String) : Nat :=
  (ks.free_keypairs.filter (fun e => e.1 = key_algo)).length

/-- Modelled from the spec: `add_free_keypair` appends a pregenerated keypair to the
free pool of `key_algo`. -/
def KeyStorage.add_free_keypair (ks : KeyStorage) (key_algo : String)
    (public_key : Nat) (private_key : PrivateKeyPem) : KeyStorage :=
  { ks with
    free_keypairs :=
      ks.free_keypairs ++ [(key_algo, { public_key := public_key, private_key := private_key })] }

/-- Modelled from the spec: `attach_free_keypair_to_uuid` atomically consumes one free
keypair of `key_algo` (the oldest one) and binds it to `keychain_uid`; fails with
`KeyDoesNotExist` when the pool for that algorithm is empty. -/
def KeyStorage.attach_free_keypair_to_uuid (ks : KeyStorage) (keychain_uid : Nat)
    (key_algo : String) : Except WAErr KeyStorage :=
  match ks.free_keypairs.find? (fun e => e.1 = key_algo) with
  | none => .error (.keyDoesNotExist ("No free keypair for " ++ key_algo))
  | some entry =>
      .ok { keys := ((keychain_uid, key_algo), entry.2) :: ks.keys
            free_keypairs := ks.free_keypairs.eraseP (fun e => e.1 = key_algo) }

/-- `generate_keypair_for_storage` (escrow.py): generate an asymmetric keypair and
store it into the key storage via `set_keys`, returning the generated keypair.
In the source `keychain_uid` is auto-generated when absent; the caller inside the
escrow module always provides it, so it is a required argument here. -/
def generate_keypair_for_storage (key_algo : String) (key_storage : KeyStorage)
    (keychain_uid : Nat) (passphrase : Option String) :
    Except WAErr (AsymKeypair × KeyStorage) :=
  let keypair := generate_keypair key_algo passphrase
  match key_storage.set_keys keychain_uid key_algo keypair.public_key keypair.private_key with
  | .ok ks2 => .ok (keypair, ks2)
  | .error e => .error e

/-- Maximum payload length accepted by `get_message_signature` (escrow.py line 21). -/
def MAX_PAYLOAD_LENGTH_FOR_SIGNATURE : Nat := 128

namespace EscrowApi

/-- `EscrowApi._ensure_keypair_exists`: create a keypair if it does not exist — first
return if the public key is already stored (`get_public_key` only raises
`KeyDoesNotExist`), else try to consume a free keypair, else generate one inline
without passphrase.  Returns the updated keystore next to the outcome. -/
def ensure_keypair_exists (ks : KeyStorage) (keychain_uid : Nat) (key_algo : String) :
    Except WAErr Unit × KeyStorage :=
  match ks.get_public_key keychain_uid key_algo with
  | .ok _ => (.ok (), ks)
  | .error _ =>
      match ks.attach_free_keypair_to_uuid keychain_uid key_algo with
      | .ok ks2 => (.ok (), ks2)
      | .error _ =>
          match generate_keypair_for_storage key_algo ks keychain_uid none with
          | .ok (_, ks2) => (.ok (), ks2)
          | .error e => (.error e, ks)

/-- `EscrowApi.fetch_public_key`: if `must_exist` is false, first ensure the keypair
exists (method dispatch on `_ensure_keypair_exists` is an explicit `ensure`
argument, so that `ReadonlyEscrowApi`'s override reuses this definition); then
return the stored public key, letting any exception flow. -/
def fetch_public_key (ensure : KeyStorage → Nat → String → Except WAErr Unit × KeyStorage)
    (ks : KeyStorage) (keychain_uid : Nat) (key_algo : String) (must_exist : Bool) :
    Except WAErr Nat × KeyStorage :=
  if must_exist then
    (ks.get_public_key keychain_uid key_algo, ks)
  else
    match ensure ks keychain_uid key_algo with
    | (.ok _, ks2) => (ks2.get_public_key keychain_uid key_algo, ks2)
    | (.error e, ks2) => (.error e, ks2)

/-- `EscrowApi.get_message_signature`: reject messages longer than
`MAX_PAYLOAD_LENGTH_FOR_SIGNATURE` with `ValueError`, ensure the signing keypair
exists, fetch the private key, load it (no passphrase), and sign the message. -/
def get_message_signature (ensure : KeyStorage → Nat → String → Except WAErr Unit × KeyStorage)
    (ks : KeyStorage) (keychain_uid : Nat) (message : List Nat) (signature_algo : String) :
    Except WAErr SignatureResult × KeyStorage :=
  if message.length > MAX_PAYLOAD_LENGTH_FOR_SIGNATURE then
    (.error (.valueError "Message too big for signing, only a hash should be sent"), ks)
  else
    match ensure ks keychain_uid signature_algo with
    | (.error e, ks2) => (.error e, ks2)
    | (.ok _, ks2) =>
        match ks2.get_private_key keychain_uid signature_algo with
        | .error e => (.error e, ks2)
        | .ok private_key_pem =>
            match load_asymmetric_key_from_pem_bytestring private_key_pem signature_algo none with
            | .error e => (.error e, ks2)
            | .ok private_key => (.ok (sign_message message signature_algo private_key), ks2)

/-- `EscrowApi._check_keypair_authorization`: the base implementation always allows
decryption. -/
def check_keypair_authorization (keychain_uid : Nat) (key_algo : String) :
    Except WAErr Unit :=
  .ok ()

/-- The candidate loop inside `_decrypt_private_key_pem_with_passphrases`: try the
candidates left to right, returning the first successfully loaded key object
(only `KeyLoadingError` is caught, and the modelled loader raises nothing else). -/
def tryPassphrases (private_key_pem : PrivateKeyPem) (key_algo : String) :
    List (Option String) → Option Nat
  | [] => none
  | p :: rest =>
      match load_asymmetric_key_from_pem_bytestring private_key_pem key_algo p with
      | .ok key_obj => some key_obj
      | .error _ => tryPassphrases private_key_pem key_algo rest

/-- `EscrowApi._decrypt_private_key_pem_with_passphrases`: attempt decryption of the
key with `None` and then each provided passphrase in order, and raise
`DecryptionError` if all fail. -/
def decrypt_private_key_pem_with_passphrases (private_key_pem : PrivateKeyPem)
    (key_algo : String) (passphrases : List String) : Except WAErr Nat :=
  match tryPassphrases private_key_pem key_algo (none :: passphrases.map some) with
  | some key_obj => .ok key_obj
  | none =>
      .error (.decryptionError
        ("Could not decrypt private key of type " ++ key_algo ++
         " (passphrases provided: " ++ toString passphrases.length ++ ")"))

/-- Python's `str.upper()` on algorithm names, working on the character list. -/
def upperStr (s : String) : String :=
  ⟨s.data.map Char.toUpper⟩

/-- `EscrowApi.decrypt_with_private_key`: assert the algorithm is RSA_OAEP, fetch the
private key, load it through the passphrase candidates, and decrypt the
cipherdict via RSA-OAEP.  Read-only on the keystore. -/
def decrypt_with_private_key (ks : KeyStorage) (keychain_uid : Nat)
    (encryption_algo : String) (cipherdict : Nat) (passphrases : List String) :
    Except WAErr Nat :=
  if upperStr encryption_algo ≠ "RSA_OAEP" then
    .error (.assertionError "Only supported asymmetric cipher for now")
  else
    match ks.get_private_key keychain_uid encryption_algo with
    | .error e => .error e
    | .ok private_key_pem =>
        match decrypt_private_key_pem_with_passphrases private_key_pem encryption_algo
            passphrases with
        | .error e => .error e
        | .ok private_key => .ok (decrypt_via_rsa_oaep cipherdict private_key)

end EscrowApi

/-- The four classification lists built by `request_decryption_authorization`
(`keypair_statuses` in the source).  An identifier is a `(keychain_uid, key_algo)`
pair. -/
structure KeypairStatuses where
  missing_private_key : List (Nat × String)
  authorization_missing : List (Nat × String)
  missing_passphrase : List (Nat × String)
  accepted : List (Nat × String)
  deriving Repr, DecidableEq

/-- The dict returned by `request_decryption_authorization`. -/
structure AuthRequestResult where
  response_message : String
  has_errors : Bool
  keypair_statuses : KeypairStatuses
  deriving Repr, DecidableEq

namespace EscrowApi

/-- The `for keypair_identifier in keypair_identifiers` loop of
`request_decryption_authorization`, with the four lists as an accumulator.
`authCheck` is the method dispatch on `_check_keypair_authorization` (overridable
by subclasses); only `AuthorizationError` is caught from it, only
`KeyDoesNotExist` from `get_private_key`, only `DecryptionError` from
`_decrypt_private_key_pem_with_passphrases`; any other exception propagates out
of the whole call. -/
def classify_keypairs (authCheck : Nat → String → Except WAErr Unit) (ks : KeyStorage)
    (passphrases : List String) :
    List (Nat × String) → KeypairStatuses → Except WAErr KeypairStatuses
  | [], acc => .ok acc
  | kid :: rest, acc =>
      match authCheck kid.1 kid.2 with
      | .error (.authorizationError _) =>
          classify_keypairs authCheck ks passphrases rest
            { acc with authorization_missing := acc.authorization_missing ++ [kid] }
      | .error e => .error e
      | .ok _ =>
          match ks.get_private_key kid.1 kid.2 with
          | .error (.keyDoesNotExist _) =>
              classify_keypairs authCheck ks passphrases rest
                { acc with missing_private_key := acc.missing_private_key ++ [kid] }
          | .error e => .error e
          | .ok private_key_pem =>
              match decrypt_private_key_pem_with_passphrases private_key_pem kid.2
                  passphrases with
              | .error (.decryptionError _) =>
                  classify_keypairs authCheck ks passphrases rest
                    { acc with missing_passphrase := acc.missing_passphrase ++ [kid] }
              | .error e => .error e
              | .ok _ =>
                  classify_keypairs authCheck ks passphrases rest
                    { acc with accepted := acc.accepted ++ [kid] }

/-- `EscrowApi.request_decryption_authorization`: reject an empty identifier list
with `ValueError`, classify each identifier, and report `has_errors` exactly when
some identifier was not accepted.  Read-only on the keystore (the loop only
performs lookups and key loading). -/
def request_decryption_authorization (authCheck : Nat → String → Except WAErr Unit)
    (ks : KeyStorage) (keypair_identifiers : List (Nat × String))
    (request_message : String) (passphrases : List String) :
    Except WAErr AuthRequestResult :=
  if keypair_identifiers.isEmpty then
    .error (.valueError
      "Keypair identifiers must not be empty, when requesting decryption authorization")
  else
    match classify_keypairs authCheck ks passphrases keypair_identifiers
        ⟨[], [], [], []⟩ with
    | .error e => .error e
    | .ok statuses =>
        .ok { response_message :=
                if statuses.accepted.length < keypair_identifiers.length
                then "Decryption request denied" else "Decryption request accepted"
              has_errors := decide (statuses.accepted.length < keypair_identifiers.length)
              keypair_statuses := statuses }

end EscrowApi

namespace ReadonlyEscrowApi

/-- `ReadonlyEscrowApi._ensure_keypair_exists`: never creates a key, just re-raises
`KeyDoesNotExist` with a tweaked message when the public key is absent. -/
def ensure_keypair_exists (ks : KeyStorage) (keychain_uid : Nat) (key_algo : String) :
    Except WAErr Unit × KeyStorage :=
  match ks.get_public_key keychain_uid key_algo with
  | .ok _ => (.ok (), ks)
  | .error _ =>
      (.error (.keyDoesNotExist
        ("Keypair " ++ toString keychain_uid ++ "/" ++ key_algo ++ " not found in escrow api")),
       ks)

end ReadonlyEscrowApi

/-- Python's `min` over a non-empty list of `(count, key_algo)` tuples: left fold
keeping the first minimum under the lexicographic tuple order. -/
def tupleListMin (acc : Nat × String) : List (Nat × String) → Nat × String
  | [] => acc
  | x :: rest =>
      tupleListMin (if x.1 < acc.1 ∨ (x.1 = acc.1 ∧ x.2 < acc.2) then x else acc) rest

/-- `generate_free_keypair_for_least_provisioned_key_algo` (escrow.py): pick the
`(free count, key_algo)` tuple minimal in lexicographic order; if its count has
reached `max_free_keys_per_algo`, do nothing and return `False`, else generate a
single keypair of that algorithm (the default `key_generation_func`, without
passphrase) and add it to the free pool, returning `True`.  The source asserts
`key_algos` non-empty; the empty case is unreachable and returns `(false, ks)`. -/
def generate_free_keypair_for_least_provisioned_key_algo (ks : KeyStorage)
    (max_free_keys_per_algo : Nat) (key_algos : List String) : Bool × KeyStorage :=
  let free_keys_counts := key_algos.map (fun a => (ks.get_free_keypairs_count a, a))
  match free_keys_counts with
  | [] => (false, ks)
  | c :: rest =>
      let m := tupleListMin c rest
      if m.1 ≥ max_free_keys_per_algo then
        (false, ks)
      else
        let keypair := generate_keypair m.2 none
        (true, ks.add_free_keypair m.2 keypair.public_key keypair.private_key)

/-- Specification-side predicate: does this passphrase candidate load the private key? -/
def loadSucceeds (pem : PrivateKeyPem) (key_algo : String) (c : Option String) : Bool :=
  match load_asymmetric_key_from_pem_bytestring pem key_algo c with
  | .ok _ => true
  | .error _ => false
/-- Concrete keystore holding one unencrypted RSA_OAEP private key (witness data). -/
def wksA : KeyStorage :=
  { keys := [((7, "RSA_OAEP"),
      { public_key := 11, private_key := { protection := none, key_id := 5 } })]
    free_keypairs := [] }
/-- Concrete keystore with no bound keys and one free DSA_DSS keypair (witness data). -/
def wksB : KeyStorage :=
  { keys := []
    free_keypairs := [("DSA_DSS",
      { public_key := 21, private_key := { protection := none, key_id := 22 } })] }
/-- Concrete keystore with one free unprotected RSA_PSS keypair (witness data). -/
def wksC : KeyStorage :=
  { keys := []
    free_keypairs := [("RSA_PSS",
      { public_key := 31, private_key := { protection := none, key_id := 32 } })] }
/-- Concrete keystore for the C4 witness: one unencrypted RSA_OAEP key under uid 1. -/
def wksD : KeyStorage :=
  { keys := [((1, "RSA_OAEP"),
      { public_key := 41, private_key := { protection := none, key_id := 42 } })]
    free_keypairs := [] }
/-- The result value of the C8 witness request. -/
def warD : AuthRequestResult :=
  { response_message := "Decryption request denied"
    has_errors := true
    keypair_statuses :=
      { missing_private_key := [(2, "RSA_OAEP")]
        authorization_missing := []
        missing_passphrase := []
        accepted := [(1, "RSA_OAEP")] } }
/-- Non-strict lexicographic order on `(free count, key_algo)` tuples, as Python
compares them. -/
def tleP (x y : Nat × String) : Prop :=
  x.1 < y.1 ∨ (x.1 = y.1 ∧ x.2 ≤ y.2)
/-- Specification-side classification of one keypair identifier, following the
claimed classification rule: `authorization_missing` when the authorization check
raises `AuthorizationError`, else `missing_private_key` when no private key is
stored, else `missing_passphrase` when no candidate passphrase (`None` plus the
supplied ones) loads the private key, else `accepted`. -/
inductive KeypairStatus where
  | authorizationMissing
  | missingPrivateKey
  | missingPassphrase
  | accepted
  deriving Repr, DecidableEq

/-- See `KeypairStatus`. -/
def spec_keypair_status (authCheck : Nat → String → Except WAErr Unit) (ks : KeyStorage)
    (passphrases : List String) (kid : Nat × String) : KeypairStatus :=
  match authCheck kid.1 kid.2 with
  | .error (.authorizationError _) => .authorizationMissing
  | _ =>
      match ks.lookupKeys kid.1 kid.2 with
      | none => .missingPrivateKey
      | some kp =>
          match EscrowApi.tryPassphrases kp.private_key kid.2
              (none :: passphrases.map some) with
          | none => .missingPassphrase
          | some _ => .accepted



lemma loadSucceeds_iff (pem : PrivateKeyPem) (key_algo : String) (c : Option String) :
    loadSucceeds pem key_algo c = true ↔ (pem.protection = none ∨ pem.protection = c) := by
  by_cases hP : pem.protection = none ∨ pem.protection = c
  · simp [loadSucceeds, load_asymmetric_key_from_pem_bytestring, hP]
  · simp [loadSucceeds, load_asymmetric_key_from_pem_bytestring, hP]

lemma load_ok_val (pem : PrivateKeyPem) (key_algo : String) (c : Option String) (k : Nat)
    (h : load_asymmetric_key_from_pem_bytestring pem key_algo c = .ok k) : k = pem.key_id := by
  unfold load_asymmetric_key_from_pem_bytestring at h
  split at h <;> simp_all

lemma tryPassphrases_some_of (pem : PrivateKeyPem) (key_algo : String)
    (cs : List (Option String)) (h : ∃ c ∈ cs, loadSucceeds pem key_algo c = true) :
    EscrowApi.tryPassphrases pem key_algo cs = some pem.key_id := by
  induction cs with
  | nil => simp at h
  | cons p rest ih =>
      cases hload : load_asymmetric_key_from_pem_bytestring pem key_algo p with
      | ok key_obj =>
          have hval := load_ok_val pem key_algo p key_obj hload
          subst hval
          unfold EscrowApi.tryPassphrases
          rw [hload]
      | error e =>
          have hrest : ∃ c ∈ rest, loadSucceeds pem key_algo c = true := by
            rcases h with ⟨c, hc, hok⟩
            rcases List.mem_cons.mp hc with rfl | hcrest
            · exfalso
              unfold loadSucceeds at hok
              rw [hload] at hok
              exact Bool.noConfusion hok
            · exact ⟨c, hcrest, hok⟩
          unfold EscrowApi.tryPassphrases
          rw [hload]
          exact ih hrest

lemma tryPassphrases_none_of (pem : PrivateKeyPem) (key_algo : String)
    (cs : List (Option String)) (h : ∀ c ∈ cs, loadSucceeds pem key_algo c = false) :
    EscrowApi.tryPassphrases pem key_algo cs = none := by
  induction cs with
  | nil => rfl
  | cons p rest ih =>
      cases hload : load_asymmetric_key_from_pem_bytestring pem key_algo p with
      | ok key_obj =>
          exfalso
          have hp := h p (List.mem_cons_self p rest)
          unfold loadSucceeds at hp
          rw [hload] at hp
          exact Bool.noConfusion hp
      | error e =>
          unfold EscrowApi.tryPassphrases
          rw [hload]
          exact ih (fun c hc => h c (List.mem_cons_of_mem p hc))

lemma lookupKeys_cons_self (keysRest : List ((Nat × String) × AsymKeypair))
    (free : List (String × AsymKeypair)) (uid : Nat) (algo : String) (kp : AsymKeypair) :
    KeyStorage.lookupKeys ⟨((uid, algo), kp) :: keysRest, free⟩ uid algo = some kp := by
  unfold KeyStorage.lookupKeys
  rw [List.find?_cons_of_pos _ (by simp)]
  rfl

lemma get_public_key_of_lookup_some (ks : KeyStorage) (uid : Nat) (algo : String)
    (kp : AsymKeypair) (h : ks.lookupKeys uid algo = some kp) :
    ks.get_public_key uid algo = .ok kp.public_key := by
  unfold KeyStorage.get_public_key
  rw [h]

lemma get_private_key_of_lookup_some (ks : KeyStorage) (uid : Nat) (algo : String)
    (kp : AsymKeypair) (h : ks.lookupKeys uid algo = some kp) :
    ks.get_private_key uid algo = .ok kp.private_key := by
  unfold KeyStorage.get_private_key
  rw [h]

/-- **C1.** With a private key stored under `(keychain_uid, RSA_OAEP)`,
`decrypt_with_private_key` tries the candidates `None :: passphrases` in order:
if some candidate loads the key it returns the RSA-OAEP decryption of the
cipherdict with that key, and if no candidate loads it it raises
`DecryptionError` with a message starting `"Could not decrypt private key"`.
In particular an unencrypted private key decrypts successfully whatever the
supplied passphrases, and a protected key with no matching passphrase always
fails with that `DecryptionError`. -/
theorem decrypt_with_private_key_passphrase_ladder (ks : KeyStorage) (keychain_uid : Nat)
    (cipherdict : Nat) (passphrases : List String) (pem : PrivateKeyPem)
    (hstored : ks.get_private_key keychain_uid "RSA_OAEP" = .ok pem) :
    (((none :: passphrases.map some).find? (loadSucceeds pem "RSA_OAEP")).isSome →
        EscrowApi.decrypt_with_private_key ks keychain_uid "RSA_OAEP" cipherdict passphrases
          = .ok (decrypt_via_rsa_oaep cipherdict pem.key_id))
    ∧ (((none :: passphrases.map some).find? (loadSucceeds pem "RSA_OAEP")) = none →
        ∃ rest, EscrowApi.decrypt_with_private_key ks keychain_uid "RSA_OAEP" cipherdict
            passphrases
          = .error (.decryptionError ("Could not decrypt private key" ++ rest)))
    ∧ (pem.protection = none →
        EscrowApi.decrypt_with_private_key ks keychain_uid "RSA_OAEP" cipherdict passphrases
          = .ok (decrypt_via_rsa_oaep cipherdict pem.key_id))
    ∧ (∀ p, pem.protection = some p → p ∉ passphrases →
        ∃ rest, EscrowApi.decrypt_with_private_key ks keychain_uid "RSA_OAEP" cipherdict
            passphrases
          = .error (.decryptionError ("Could not decrypt private key" ++ rest))) := by
  have hguard : ¬(EscrowApi.upperStr "RSA_OAEP" ≠ "RSA_OAEP") := by decide
  have hok : ((none :: passphrases.map some).find? (loadSucceeds pem "RSA_OAEP")).isSome →
      EscrowApi.decrypt_with_private_key ks keychain_uid "RSA_OAEP" cipherdict passphrases
        = .ok (decrypt_via_rsa_oaep cipherdict pem.key_id) := by
    intro h
    rcases Option.isSome_iff_exists.mp h with ⟨c, hc⟩
    have hmem := List.mem_of_find?_eq_some hc
    have hload := List.find?_some hc
    have htry := tryPassphrases_some_of pem "RSA_OAEP" (none :: passphrases.map some)
      ⟨c, hmem, hload⟩
    unfold EscrowApi.decrypt_with_private_key
    rw [if_neg hguard]
    simp only [hstored]
    unfold EscrowApi.decrypt_private_key_pem_with_passphrases
    rw [htry]
  have herr : ((none :: passphrases.map some).find? (loadSucceeds pem "RSA_OAEP")) = none →
      ∃ rest, EscrowApi.decrypt_with_private_key ks keychain_uid "RSA_OAEP" cipherdict
          passphrases
        = .error (.decryptionError ("Could not decrypt private key" ++ rest)) := by
    intro h
    have hall := List.find?_eq_none.mp h
    have htry := tryPassphrases_none_of pem "RSA_OAEP" (none :: passphrases.map some)
      (fun c hc => by
        have hnot := hall c hc
        simp only [Bool.not_eq_true] at hnot
        exact hnot)
    refine ⟨" of type RSA_OAEP (passphrases provided: " ++ toString passphrases.length ++ ")",
      ?_⟩
    unfold EscrowApi.decrypt_with_private_key
    rw [if_neg hguard]
    simp only [hstored]
    unfold EscrowApi.decrypt_private_key_pem_with_passphrases
    rw [htry]
    simp only [← String.append_assoc]
    rfl
  refine ⟨hok, herr, ?_, ?_⟩
  · intro hnone
    apply hok
    have hhead : loadSucceeds pem "RSA_OAEP" none = true :=
      (loadSucceeds_iff _ _ _).mpr (Or.inl hnone)
    rw [List.find?_cons_of_pos _ hhead]
    rfl
  · intro p hp hnotin
    apply herr
    apply List.find?_eq_none.mpr
    intro c hc
    rcases List.mem_cons.mp hc with rfl | hcrest
    · simp [loadSucceeds_iff, hp]
    · rcases List.mem_map.mp hcrest with ⟨q, hq, rfl⟩
      simp only [loadSucceeds_iff, hp, Bool.not_eq_true]
      rintro (hcontra | hcontra)
      · exact Option.noConfusion hcontra
      · have hpq : p = q := by injection hcontra
        subst hpq
        exact hnotin hq


/-- Witness for C1: an unencrypted stored key decrypts even under a wrong passphrase. -/
theorem decrypt_with_private_key_passphrase_ladder_witness :
    EscrowApi.decrypt_with_private_key wksA 7 "RSA_OAEP" 3 ["wrong"]
      = .ok (decrypt_via_rsa_oaep 3 5) :=
  (decrypt_with_private_key_passphrase_ladder wksA 7 3 ["wrong"]
      { protection := none, key_id := 5 } (by rfl)).2.2.1 rfl

/-- **C2.** `fetch_public_key` on the base `EscrowApi`: with `must_exist = true` it is
exactly the keystore lookup (no creation, state unchanged, `KeyDoesNotExist`
propagates); with `must_exist = false` it returns the stored public key when
present, otherwise consumes a free keypair when one exists for the algorithm,
and only otherwise generates a fresh keypair inline; in each case it returns the
public key PEM of the (possibly just created) stored keypair. -/
theorem fetch_public_key_modes (ks : KeyStorage) (uid : Nat) (algo : String) :
    (EscrowApi.fetch_public_key EscrowApi.ensure_keypair_exists ks uid algo true
        = (ks.get_public_key uid algo, ks))
    ∧ (∀ kp, ks.lookupKeys uid algo = some kp →
        EscrowApi.fetch_public_key EscrowApi.ensure_keypair_exists ks uid algo false
          = (.ok kp.public_key, ks))
    ∧ (∀ entry, ks.lookupKeys uid algo = none →
        ks.free_keypairs.find? (fun e => e.1 = algo) = some entry →
        EscrowApi.fetch_public_key EscrowApi.ensure_keypair_exists ks uid algo false
          = (.ok entry.2.public_key,
             { keys := ((uid, algo), entry.2) :: ks.keys
               free_keypairs := ks.free_keypairs.eraseP (fun e => e.1 = algo) }))
    ∧ (ks.lookupKeys uid algo = none →
        ks.free_keypairs.find? (fun e => e.1 = algo) = none →
        EscrowApi.fetch_public_key EscrowApi.ensure_keypair_exists ks uid algo false
          = (.ok (generate_keypair algo none).public_key,
             { keys := ((uid, algo), generate_keypair algo none) :: ks.keys
               free_keypairs := ks.free_keypairs })) := by
  refine ⟨?_, ?_, ?_, ?_⟩
  · simp [EscrowApi.fetch_public_key]
  · intro kp hlk
    simp [EscrowApi.fetch_public_key, EscrowApi.ensure_keypair_exists,
      KeyStorage.get_public_key, hlk]
  · intro entry hlk hfree
    simp [EscrowApi.fetch_public_key, EscrowApi.ensure_keypair_exists,
      KeyStorage.get_public_key, KeyStorage.attach_free_keypair_to_uuid, hlk, hfree,
      lookupKeys_cons_self]
  · intro hlk hfree
    simp [EscrowApi.fetch_public_key, EscrowApi.ensure_keypair_exists,
      KeyStorage.get_public_key, KeyStorage.attach_free_keypair_to_uuid,
      generate_keypair_for_storage, KeyStorage.set_keys, hlk, hfree,
      lookupKeys_cons_self]


/-- Witness for C2: with `must_exist = false` and no stored key, the free DSA_DSS
keypair is consumed and its public key returned. -/
theorem fetch_public_key_modes_witness :
    EscrowApi.fetch_public_key EscrowApi.ensure_keypair_exists wksB 4 "DSA_DSS" false
      = (.ok 21,
         { keys := [((4, "DSA_DSS"),
             { public_key := 21, private_key := { protection := none, key_id := 22 } })]
           free_keypairs := [] }) :=
  (fetch_public_key_modes wksB 4 "DSA_DSS").2.2.1
    ("DSA_DSS", { public_key := 21, private_key := { protection := none, key_id := 22 } })
    (by rfl) (by rfl)

lemma load_error_shape (pem : PrivateKeyPem) (key_algo : String) (c : Option String)
    (e : WAErr) (h : load_asymmetric_key_from_pem_bytestring pem key_algo c = .error e) :
    ∃ m, e = .keyLoadingError m := by
  unfold load_asymmetric_key_from_pem_bytestring at h
  split at h
  · simp at h
  · injection h with h2
    exact ⟨_, h2.symm⟩

/-- After `EscrowApi._ensure_keypair_exists` the keypair is stored, the call reports
success, and the stored keypair is the pre-existing one, the consumed free one, or
a freshly generated unprotected one, in that preference order. -/
lemma ensure_keypair_exists_result (ks : KeyStorage) (uid : Nat) (algo : String) :
    ∃ ks2 kp, EscrowApi.ensure_keypair_exists ks uid algo = (.ok (), ks2)
      ∧ ks2.lookupKeys uid algo = some kp
      ∧ (ks.lookupKeys uid algo = some kp
         ∨ (ks.lookupKeys uid algo = none
            ∧ ((∃ entry, ks.free_keypairs.find? (fun e => e.1 = algo) = some entry
                  ∧ kp = entry.2)
               ∨ (ks.free_keypairs.find? (fun e => e.1 = algo) = none
                  ∧ kp = generate_keypair algo none)))) := by
  cases hlk : ks.lookupKeys uid algo with
  | some kp =>
      refine ⟨ks, kp, ?_, hlk, Or.inl rfl⟩
      simp [EscrowApi.ensure_keypair_exists, KeyStorage.get_public_key, hlk]
  | none =>
      cases hfree : ks.free_keypairs.find? (fun e => e.1 = algo) with
      | some entry =>
          refine ⟨{ keys := ((uid, algo), entry.2) :: ks.keys
                    free_keypairs := ks.free_keypairs.eraseP (fun e => e.1 = algo) },
                  entry.2, ?_, lookupKeys_cons_self _ _ _ _ _,
                  Or.inr ⟨rfl, Or.inl ⟨entry, rfl, rfl⟩⟩⟩
          simp [EscrowApi.ensure_keypair_exists, KeyStorage.get_public_key,
            KeyStorage.attach_free_keypair_to_uuid, hlk, hfree]
      | none =>
          refine ⟨{ keys := ((uid, algo), generate_keypair algo none) :: ks.keys
                    free_keypairs := ks.free_keypairs },
                  generate_keypair algo none, ?_, lookupKeys_cons_self _ _ _ _ _,
                  Or.inr ⟨rfl, Or.inr ⟨rfl, rfl⟩⟩⟩
          simp [EscrowApi.ensure_keypair_exists, KeyStorage.get_public_key,
            KeyStorage.attach_free_keypair_to_uuid, generate_keypair_for_storage,
            KeyStorage.set_keys, hlk, hfree]

/-- **C3.** `get_message_signature` rejects every message longer than 128 bytes with
`ValueError` before touching the keystore (the returned keystore is the input
one); for a message of at most 128 bytes no `ValueError` is ever produced. -/
theorem get_message_signature_size_guard (ks : KeyStorage) (uid : Nat) (algo : String)
    (message : List Nat) :
    (message.length > 128 →
        EscrowApi.get_message_signature EscrowApi.ensure_keypair_exists ks uid message algo
          = (.error (.valueError "Message too big for signing, only a hash should be sent"),
             ks))
    ∧ (message.length ≤ 128 →
        ∀ m, (EscrowApi.get_message_signature EscrowApi.ensure_keypair_exists ks uid message
            algo).1 ≠ .error (.valueError m)) := by
  constructor
  · intro hbig
    unfold EscrowApi.get_message_signature
    rw [if_pos (show message.length > MAX_PAYLOAD_LENGTH_FOR_SIGNATURE from hbig)]
  · intro hlen m
    obtain ⟨ks2, kp, hens, hlk2, _⟩ := ensure_keypair_exists_result ks uid algo
    unfold EscrowApi.get_message_signature
    rw [if_neg (show ¬(message.length > MAX_PAYLOAD_LENGTH_FOR_SIGNATURE) from
      Nat.not_lt.mpr hlen)]
    simp only [hens, get_private_key_of_lookup_some ks2 uid algo kp hlk2]
    cases hload : load_asymmetric_key_from_pem_bytestring kp.private_key algo none with
    | ok k => simp [hload]
    | error e =>
        obtain ⟨m2, hm2⟩ := load_error_shape _ _ _ _ hload
        simp [hload, hm2]

/-- Witness for C3: a 129-byte message is rejected with `ValueError` and the
empty keystore is left unchanged. -/
theorem get_message_signature_size_guard_witness :
    EscrowApi.get_message_signature EscrowApi.ensure_keypair_exists ⟨[], []⟩ 1
        (List.replicate 129 0) "DSA_DSS"
      = (.error (.valueError "Message too big for signing, only a hash should be sent"),
         ⟨[], []⟩) :=
  (get_message_signature_size_guard ⟨[], []⟩ 1 "DSA_DSS" (List.replicate 129 0)).1
    (by simp)

/-- **C6.** `ReadonlyEscrowApi.fetch_public_key` never creates a keypair: when
`(keychain_uid, key_algo)` is absent it raises `KeyDoesNotExist` for both values
of `must_exist`, and the keystore is returned unchanged. -/
theorem readonly_fetch_public_key_never_creates (ks : KeyStorage) (uid : Nat)
    (algo : String) (must_exist : Bool) (habsent : ks.lookupKeys uid algo = none) :
    ∃ m, EscrowApi.fetch_public_key ReadonlyEscrowApi.ensure_keypair_exists ks uid algo
        must_exist = (.error (.keyDoesNotExist m), ks) := by
  cases must_exist with
  | true =>
      refine ⟨"Public key not found for " ++ algo, ?_⟩
      simp [EscrowApi.fetch_public_key, KeyStorage.get_public_key, habsent]
  | false =>
      refine ⟨"Keypair " ++ toString uid ++ "/" ++ algo ++ " not found in escrow api", ?_⟩
      simp [EscrowApi.fetch_public_key, ReadonlyEscrowApi.ensure_keypair_exists,
        KeyStorage.get_public_key, habsent]

/-- Witness for C6: on the empty keystore the readonly trustee raises
`KeyDoesNotExist` even with `must_exist = false`. -/
theorem readonly_fetch_public_key_never_creates_witness :
    ∃ m, EscrowApi.fetch_public_key ReadonlyEscrowApi.ensure_keypair_exists ⟨[], []⟩ 2
        "RSA_OAEP" false = (.error (.keyDoesNotExist m), ⟨[], []⟩) :=
  readonly_fetch_public_key_never_creates ⟨[], []⟩ 2 "RSA_OAEP" false rfl

/-- **C10.** For a message of at most 128 bytes with no keypair stored under
`(keychain_uid, signature_algo)`, `get_message_signature` creates the keypair
rather than raising `KeyDoesNotExist`: it consumes the free keypair for that
algorithm when one exists, else generates a fresh unprotected one; the keypair is
stored in the returned keystore, and whenever its private part is unprotected
(always true for the generated one, and true for free keys produced by the free-key
worker) the call returns the signature made with that key's private part. -/
theorem get_message_signature_ensures_keypair (ks : KeyStorage) (uid : Nat) (algo : String)
    (message : List Nat) (hlen : message.length ≤ 128)
    (habsent : ks.lookupKeys uid algo = none) :
    ∃ kp ks2,
      ks2.lookupKeys uid algo = some kp
      ∧ ((∃ entry, ks.free_keypairs.find? (fun e => e.1 = algo) = some entry ∧ kp = entry.2)
         ∨ (ks.free_keypairs.find? (fun e => e.1 = algo) = none
            ∧ kp = generate_keypair algo none))
      ∧ (EscrowApi.get_message_signature EscrowApi.ensure_keypair_exists ks uid message
          algo).2 = ks2
      ∧ (∀ m, (EscrowApi.get_message_signature EscrowApi.ensure_keypair_exists ks uid message
          algo).1 ≠ .error (.keyDoesNotExist m))
      ∧ (kp.private_key.protection = none →
          (EscrowApi.get_message_signature EscrowApi.ensure_keypair_exists ks uid message
            algo).1 = .ok (sign_message message algo kp.private_key.key_id)) := by
  obtain ⟨ks2, kp, hens, hlk2, hsrc⟩ := ensure_keypair_exists_result ks uid algo
  rcases hsrc with hpre | ⟨_, hsrc⟩
  · rw [habsent] at hpre
    exact Option.noConfusion hpre
  refine ⟨kp, ks2, hlk2, hsrc, ?_, ?_, ?_⟩
  all_goals
    unfold EscrowApi.get_message_signature
    rw [if_neg (show ¬(message.length > MAX_PAYLOAD_LENGTH_FOR_SIGNATURE) from
      Nat.not_lt.mpr hlen)]
    simp only [hens, get_private_key_of_lookup_some ks2 uid algo kp hlk2]
  · cases hload : load_asymmetric_key_from_pem_bytestring kp.private_key algo none with
    | ok k => simp [hload]
    | error e => simp [hload]
  · intro m
    cases hload : load_asymmetric_key_from_pem_bytestring kp.private_key algo none with
    | ok k => simp [hload]
    | error e =>
        obtain ⟨m2, hm2⟩ := load_error_shape _ _ _ _ hload
        simp [hload, hm2]
  · intro hprot
    have hload : load_asymmetric_key_from_pem_bytestring kp.private_key algo none
        = .ok kp.private_key.key_id := by
      simp [load_asymmetric_key_from_pem_bytestring, hprot]
    simp [hload]


/-- Witness for C10: signing with an absent keypair consumes the free RSA_PSS pair
and signs with its private part. -/
theorem get_message_signature_ensures_keypair_witness :
    ∃ kp ks2,
      ks2.lookupKeys 9 "RSA_PSS" = some kp
      ∧ ((∃ entry, wksC.free_keypairs.find? (fun e => e.1 = "RSA_PSS") = some entry
            ∧ kp = entry.2)
         ∨ (wksC.free_keypairs.find? (fun e => e.1 = "RSA_PSS") = none
            ∧ kp = generate_keypair "RSA_PSS" none))
      ∧ (EscrowApi.get_message_signature EscrowApi.ensure_keypair_exists wksC 9 [1, 2, 3]
          "RSA_PSS").2 = ks2
      ∧ (∀ m, (EscrowApi.get_message_signature EscrowApi.ensure_keypair_exists wksC 9
          [1, 2, 3] "RSA_PSS").1 ≠ .error (.keyDoesNotExist m))
      ∧ (kp.private_key.protection = none →
          (EscrowApi.get_message_signature EscrowApi.ensure_keypair_exists wksC 9 [1, 2, 3]
            "RSA_PSS").1 = .ok (sign_message [1, 2, 3] "RSA_PSS" kp.private_key.key_id)) :=
  get_message_signature_ensures_keypair wksC 9 "RSA_PSS" [1, 2, 3] (by decide) (by rfl)


lemma tleP_refl (x : Nat × String) : tleP x x :=
  Or.inr ⟨rfl, le_refl _⟩

lemma tleP_trans {x y z : Nat × String} (h1 : tleP x y) (h2 : tleP y z) : tleP x z := by
  rcases h1 with h1 | ⟨e1, l1⟩ <;> rcases h2 with h2 | ⟨e2, l2⟩
  · exact Or.inl (h1.trans h2)
  · exact Or.inl (by rw [← e2]; exact h1)
  · exact Or.inl (by rw [e1]; exact h2)
  · exact Or.inr ⟨e1.trans e2, l1.trans l2⟩

lemma tleP_of_lt {x y : Nat × String} (h : x.1 < y.1 ∨ (x.1 = y.1 ∧ x.2 < y.2)) :
    tleP x y :=
  h.imp id (fun hp => ⟨hp.1, le_of_lt hp.2⟩)

lemma tleP_of_not_lt {x y : Nat × String} (h : ¬(x.1 < y.1 ∨ (x.1 = y.1 ∧ x.2 < y.2))) :
    tleP y x := by
  push_neg at h
  obtain ⟨h1, h2⟩ := h
  rcases lt_or_eq_of_le h1 with hlt | heq
  · exact Or.inl hlt
  · exact Or.inr ⟨heq, h2 heq.symm⟩

/-- `tupleListMin acc l` is either the seed or an element of the list, and it is a
lower bound for the seed and every element — i.e. it is Python's `min`. -/
lemma tupleListMin_spec (l : List (Nat × String)) : ∀ acc : Nat × String,
    (tupleListMin acc l = acc ∨ tupleListMin acc l ∈ l)
    ∧ tleP (tupleListMin acc l) acc
    ∧ ∀ x ∈ l, tleP (tupleListMin acc l) x := by
  induction l with
  | nil =>
      intro acc
      exact ⟨Or.inl rfl, tleP_refl _, by simp⟩
  | cons x rest ih =>
      intro acc
      unfold tupleListMin
      by_cases hlt : x.1 < acc.1 ∨ (x.1 = acc.1 ∧ x.2 < acc.2)
      · rw [if_pos hlt]
        obtain ⟨hm, hle, hall⟩ := ih x
        refine ⟨?_, tleP_trans hle (tleP_of_lt hlt), ?_⟩
        · rcases hm with h | h
          · exact Or.inr (by rw [h]; exact List.mem_cons_self x rest)
          · exact Or.inr (List.mem_cons_of_mem x h)
        · intro y hy
          rcases List.mem_cons.mp hy with rfl | hyr
          · exact hle
          · exact hall y hyr
      · rw [if_neg hlt]
        obtain ⟨hm, hle, hall⟩ := ih acc
        refine ⟨?_, hle, ?_⟩
        · rcases hm with h | h
          · exact Or.inl h
          · exact Or.inr (List.mem_cons_of_mem x h)
        · intro y hy
          rcases List.mem_cons.mp hy with rfl | hyr
          · exact tleP_trans hle (tleP_of_not_lt hlt)
          · exact hall y hyr

/-- **C5.** `generate_free_keypair_for_least_provisioned_key_algo` selects over the
given `key_algos` a pair `m = (count, algo)` whose algo is in the list, whose
count is that algo's free-keypair count, and which is lexicographically minimal —
smallest count first, ties broken by the smallest algo name.  If that count has
reached `max_free_keys_per_algo` it returns `False` and the keystore is
unchanged; otherwise it returns `True` and the keystore gains exactly one
generated keypair in the free pool of that algo: its free count grows by one and
every other algo's count is unchanged. -/
theorem generate_free_keypair_least_provisioned (ks : KeyStorage)
    (max_free_keys_per_algo : Nat) (key_algos : List String) (hne : key_algos ≠ []) :
    ∃ m : Nat × String,
      m.2 ∈ key_algos
      ∧ m.1 = ks.get_free_keypairs_count m.2
      ∧ (∀ b ∈ key_algos, tleP m (ks.get_free_keypairs_count b, b))
      ∧ (max_free_keys_per_algo ≤ m.1 →
          generate_free_keypair_for_least_provisioned_key_algo ks max_free_keys_per_algo
            key_algos = (false, ks))
      ∧ (m.1 < max_free_keys_per_algo →
          generate_free_keypair_for_least_provisioned_key_algo ks max_free_keys_per_algo
              key_algos
            = (true,
               { ks with free_keypairs :=
                   ks.free_keypairs ++ [(m.2, generate_keypair m.2 none)] })
          ∧ (∀ b, (({ ks with free_keypairs :=
                  ks.free_keypairs ++ [(m.2, generate_keypair m.2 none)] } :
                KeyStorage).get_free_keypairs_count b)
              = if b = m.2 then ks.get_free_keypairs_count b + 1
                else ks.get_free_keypairs_count b)) := by
  cases key_algos with
  | nil => exact absurd rfl hne
  | cons a rest =>
      have hmap :
          (a :: rest).map (fun x => (ks.get_free_keypairs_count x, x))
            = (ks.get_free_keypairs_count a, a)
              :: rest.map (fun x => (ks.get_free_keypairs_count x, x)) := rfl
      obtain ⟨hm, hle, hall⟩ :=
        tupleListMin_spec (rest.map (fun x => (ks.get_free_keypairs_count x, x)))
          (ks.get_free_keypairs_count a, a)
      set m := tupleListMin (ks.get_free_keypairs_count a, a)
        (rest.map (fun x => (ks.get_free_keypairs_count x, x))) with hmdef
      have hshape : m.2 ∈ a :: rest ∧ m.1 = ks.get_free_keypairs_count m.2 := by
        rcases hm with h | h
        · rw [h]
          exact ⟨List.mem_cons_self a rest, rfl⟩
        · obtain ⟨b, hb, hbm⟩ := List.mem_map.mp h
          rw [← hbm]
          exact ⟨List.mem_cons_of_mem a hb, rfl⟩
      refine ⟨m, hshape.1, hshape.2, ?_, ?_, ?_⟩
      · intro b hb
        rcases List.mem_cons.mp hb with rfl | hbr
        · exact hle
        · exact hall _ (List.mem_map_of_mem _ hbr)
      · intro hfull
        unfold generate_free_keypair_for_least_provisioned_key_algo
        rw [hmap]
        simp only [← hmdef]
        rw [if_pos hfull]
      · intro hroom
        constructor
        · unfold generate_free_keypair_for_least_provisioned_key_algo
          rw [hmap]
          simp only [← hmdef]
          rw [if_neg (Nat.not_le.mpr hroom)]
          rfl
        · intro b
          by_cases hb : b = m.2
          · subst hb
            simp [KeyStorage.get_free_keypairs_count, KeyStorage.add_free_keypair,
              List.filter_append]
          · simp [KeyStorage.get_free_keypairs_count, KeyStorage.add_free_keypair,
              List.filter_append, hb, Ne.symm hb]


lemma get_private_key_ok_inv (ks : KeyStorage) (uid : Nat) (algo : String)
    (pem : PrivateKeyPem) (h : ks.get_private_key uid algo = .ok pem) :
    ∃ kp, ks.lookupKeys uid algo = some kp ∧ pem = kp.private_key := by
  unfold KeyStorage.get_private_key at h
  cases hlk : ks.lookupKeys uid algo <;> rw [hlk] at h
  · simp at h
  · injection h with h2
    exact ⟨_, rfl, h2.symm⟩

lemma get_private_key_error_inv (ks : KeyStorage) (uid : Nat) (algo : String)
    (e : WAErr) (h : ks.get_private_key uid algo = .error e) :
    ks.lookupKeys uid algo = none ∧ ∃ m, e = .keyDoesNotExist m := by
  unfold KeyStorage.get_private_key at h
  cases hlk : ks.lookupKeys uid algo <;> rw [hlk] at h
  · injection h with h2
    exact ⟨rfl, _, h2.symm⟩
  · simp at h

lemma decrypt_pem_ok_inv (pem : PrivateKeyPem) (algo : String) (pps : List String)
    (k : Nat) (h : EscrowApi.decrypt_private_key_pem_with_passphrases pem algo pps = .ok k) :
    EscrowApi.tryPassphrases pem algo (none :: pps.map some) = some k := by
  unfold EscrowApi.decrypt_private_key_pem_with_passphrases at h
  cases htry : EscrowApi.tryPassphrases pem algo (none :: pps.map some) <;> rw [htry] at h
  · simp at h
  · injection h with h2
    rw [h2]

lemma decrypt_pem_error_inv (pem : PrivateKeyPem) (algo : String) (pps : List String)
    (e : WAErr)
    (h : EscrowApi.decrypt_private_key_pem_with_passphrases pem algo pps = .error e) :
    (∃ m, e = .decryptionError m)
    ∧ EscrowApi.tryPassphrases pem algo (none :: pps.map some) = none := by
  unfold EscrowApi.decrypt_private_key_pem_with_passphrases at h
  cases htry : EscrowApi.tryPassphrases pem algo (none :: pps.map some) <;> rw [htry] at h
  · injection h with h2
    exact ⟨⟨_, h2.symm⟩, rfl⟩
  · simp at h

/-- When the authorization check only ever succeeds or raises `AuthorizationError`,
the classification loop succeeds and each of the four lists extends the
accumulator by exactly the identifiers whose specification-side status matches. -/
lemma classify_keypairs_eq_filters (authCheck : Nat → String → Except WAErr Unit)
    (ks : KeyStorage) (pps : List String) :
    ∀ ids : List (Nat × String),
      (∀ kid ∈ ids, authCheck kid.1 kid.2 = .ok ()
          ∨ ∃ m, authCheck kid.1 kid.2 = .error (.authorizationError m)) →
      ∀ acc, EscrowApi.classify_keypairs authCheck ks pps ids acc
        = .ok { missing_private_key := acc.missing_private_key
                  ++ ids.filter (fun kid =>
                        spec_keypair_status authCheck ks pps kid == .missingPrivateKey)
                authorization_missing := acc.authorization_missing
                  ++ ids.filter (fun kid =>
                        spec_keypair_status authCheck ks pps kid == .authorizationMissing)
                missing_passphrase := acc.missing_passphrase
                  ++ ids.filter (fun kid =>
                        spec_keypair_status authCheck ks pps kid == .missingPassphrase)
                accepted := acc.accepted
                  ++ ids.filter (fun kid =>
                        spec_keypair_status authCheck ks pps kid == .accepted) } := by
  intro ids
  induction ids with
  | nil =>
      intro _ acc
      simp [EscrowApi.classify_keypairs]
  | cons kid rest ih =>
      intro hauth acc
      have hrest := fun kid2 h2 => hauth kid2 (List.mem_cons_of_mem kid h2)
      rcases hauth kid (List.mem_cons_self kid rest) with hok | ⟨m, herr⟩
      · cases hpk : ks.get_private_key kid.1 kid.2 with
        | error e =>
            obtain ⟨hlkn, m2, rfl⟩ := get_private_key_error_inv ks kid.1 kid.2 e hpk
            have hstat : spec_keypair_status authCheck ks pps kid = .missingPrivateKey := by
              simp [spec_keypair_status, hok, hlkn]
            unfold EscrowApi.classify_keypairs
            simp [hok, hpk, ih hrest, List.filter_cons, hstat, List.append_assoc]
        | ok pem =>
            obtain ⟨kp, hlk, rfl⟩ := get_private_key_ok_inv ks kid.1 kid.2 pem hpk
            cases hdec : EscrowApi.decrypt_private_key_pem_with_passphrases kp.private_key
                kid.2 pps with
            | error e =>
                obtain ⟨⟨m2, rfl⟩, htry⟩ :=
                  decrypt_pem_error_inv kp.private_key kid.2 pps e hdec
                have hstat : spec_keypair_status authCheck ks pps kid
                    = .missingPassphrase := by
                  simp [spec_keypair_status, hok, hlk, htry]
                unfold EscrowApi.classify_keypairs
                simp [hok, hpk, hdec, ih hrest, List.filter_cons, hstat,
                  List.append_assoc]
            | ok k =>
                have htry := decrypt_pem_ok_inv kp.private_key kid.2 pps k hdec
                have hstat : spec_keypair_status authCheck ks pps kid = .accepted := by
                  simp [spec_keypair_status, hok, hlk, htry]
                unfold EscrowApi.classify_keypairs
                simp [hok, hpk, hdec, ih hrest, List.filter_cons, hstat,
                  List.append_assoc]
      · have hstat : spec_keypair_status authCheck ks pps kid = .authorizationMissing := by
          simp [spec_keypair_status, herr]
        unfold EscrowApi.classify_keypairs
        simp [herr, ih hrest, List.filter_cons, hstat, List.append_assoc]

/-- Whenever the classification loop returns successfully, the four lists together
contain exactly the processed identifiers on top of the accumulator: both the
total length and the multiplicity of every identifier add up. -/
lemma classify_keypairs_ok_counts (authCheck : Nat → String → Except WAErr Unit)
    (ks : KeyStorage) (pps : List String) :
    ∀ (ids : List (Nat × String)) (acc r : KeypairStatuses),
      EscrowApi.classify_keypairs authCheck ks pps ids acc = .ok r →
      (r.missing_private_key.length + r.authorization_missing.length
          + r.missing_passphrase.length + r.accepted.length
        = acc.missing_private_key.length + acc.authorization_missing.length
          + acc.missing_passphrase.length + acc.accepted.length + ids.length)
      ∧ ∀ x : Nat × String,
          r.missing_private_key.count x + r.authorization_missing.count x
            + r.missing_passphrase.count x + r.accepted.count x
          = acc.missing_private_key.count x + acc.authorization_missing.count x
            + acc.missing_passphrase.count x + acc.accepted.count x + ids.count x := by
  intro ids
  induction ids with
  | nil =>
      intro acc r h
      unfold EscrowApi.classify_keypairs at h
      injection h with h2
      subst h2
      exact ⟨by simp, fun x => by simp⟩
  | cons kid rest ih =>
      intro acc r h
      unfold EscrowApi.classify_keypairs at h
      split at h
      · obtain ⟨hlen, hcnt⟩ := ih _ _ h
        constructor
        · simp only [List.length_append, List.length_singleton, List.length_cons, List.length_nil] at hlen ⊢
          omega
        · intro x
          have hx := hcnt x
          simp only [List.count_append, List.count_cons] at hx ⊢
          by_cases hxy : x == kid
          · simp only [hxy, if_true, List.count_singleton, List.count_nil] at hx ⊢
            omega
          · simp only [hxy, if_false, List.count_nil] at hx ⊢
            omega
      · exact absurd h (by simp)
      · split at h
        · obtain ⟨hlen, hcnt⟩ := ih _ _ h
          constructor
          · simp only [List.length_append, List.length_singleton, List.length_cons, List.length_nil]
              at hlen ⊢
            omega
          · intro x
            have hx := hcnt x
            simp only [List.count_append, List.count_cons] at hx ⊢
            by_cases hxy : x == kid
            · simp only [hxy, if_true, List.count_singleton, List.count_nil] at hx ⊢
              omega
            · simp only [hxy, if_false, List.count_nil] at hx ⊢
              omega
        · exact absurd h (by simp)
        · split at h
          · obtain ⟨hlen, hcnt⟩ := ih _ _ h
            constructor
            · simp only [List.length_append, List.length_singleton, List.length_cons, List.length_nil]
                at hlen ⊢
              omega
            · intro x
              have hx := hcnt x
              simp only [List.count_append, List.count_cons] at hx ⊢
              by_cases hxy : x == kid
              · simp only [hxy, if_true, List.count_singleton, List.count_nil] at hx ⊢
                omega
              · simp only [hxy, if_false, List.count_nil] at hx ⊢
                omega
          · exact absurd h (by simp)
          · obtain ⟨hlen, hcnt⟩ := ih _ _ h
            constructor
            · simp only [List.length_append, List.length_singleton, List.length_cons, List.length_nil]
                at hlen ⊢
              omega
            · intro x
              have hx := hcnt x
              simp only [List.count_append, List.count_cons] at hx ⊢
              by_cases hxy : x == kid
              · simp only [hxy, if_true, List.count_singleton, List.count_nil] at hx ⊢
                omega
              · simp only [hxy, if_false, List.count_nil] at hx ⊢
                omega

/-- **C4.** For every non-empty identifier list, and any authorization policy that
either allows or raises `AuthorizationError` (as `_check_keypair_authorization`
overrides are meant to), `request_decryption_authorization` returns the dict whose
`keypair_statuses` classifies each identifier into exactly one list:
`authorization_missing` when the check raises `AuthorizationError`, else
`missing_private_key` when the private-key lookup fails, else `missing_passphrase`
when no candidate passphrase (`None` plus the supplied ones) loads the key, else
`accepted`; `response_message` and `has_errors` are derived from the accepted
count. -/
theorem request_decryption_authorization_classification
    (authCheck : Nat → String → Except WAErr Unit) (ks : KeyStorage)
    (ids : List (Nat × String)) (rm : String) (pps : List String) (hne : ids ≠ [])
    (hauth : ∀ kid ∈ ids, authCheck kid.1 kid.2 = .ok ()
        ∨ ∃ m, authCheck kid.1 kid.2 = .error (.authorizationError m)) :
    EscrowApi.request_decryption_authorization authCheck ks ids rm pps
      = .ok { response_message :=
                if (ids.filter (fun kid =>
                      spec_keypair_status authCheck ks pps kid == .accepted)).length
                    < ids.length
                then "Decryption request denied" else "Decryption request accepted"
              has_errors :=
                decide ((ids.filter (fun kid =>
                    spec_keypair_status authCheck ks pps kid == .accepted)).length
                  < ids.length)
              keypair_statuses :=
                { missing_private_key := ids.filter (fun kid =>
                      spec_keypair_status authCheck ks pps kid == .missingPrivateKey)
                  authorization_missing := ids.filter (fun kid =>
                      spec_keypair_status authCheck ks pps kid == .authorizationMissing)
                  missing_passphrase := ids.filter (fun kid =>
                      spec_keypair_status authCheck ks pps kid == .missingPassphrase)
                  accepted := ids.filter (fun kid =>
                      spec_keypair_status authCheck ks pps kid == .accepted) } } := by
  unfold EscrowApi.request_decryption_authorization
  rw [if_neg (by simp only [List.isEmpty_iff]; exact hne)]
  rw [classify_keypairs_eq_filters authCheck ks pps ids hauth ⟨[], [], [], []⟩]
  simp


/-- Witness for C4: with the always-allowing base check, a stored identifier is
accepted and an absent one lands in `missing_private_key`. -/
theorem request_decryption_authorization_classification_witness :
    EscrowApi.request_decryption_authorization EscrowApi.check_keypair_authorization wksD
        [(1, "RSA_OAEP"), (2, "RSA_OAEP")] "please" []
      = .ok { response_message := "Decryption request denied"
              has_errors := true
              keypair_statuses :=
                { missing_private_key := [(2, "RSA_OAEP")]
                  authorization_missing := []
                  missing_passphrase := []
                  accepted := [(1, "RSA_OAEP")] } } := by
  have h := request_decryption_authorization_classification
    EscrowApi.check_keypair_authorization wksD [(1, "RSA_OAEP"), (2, "RSA_OAEP")] "please" []
    (by decide) (fun kid _ => Or.inl rfl)
  rw [h]
  rfl

/-- The base `_check_keypair_authorization` never yields the `authorizationMissing`
status. -/
lemma spec_keypair_status_base_ne_auth (ks : KeyStorage) (pps : List String)
    (kid : Nat × String) :
    (spec_keypair_status EscrowApi.check_keypair_authorization ks pps kid
      == KeypairStatus.authorizationMissing) = false := by
  unfold spec_keypair_status EscrowApi.check_keypair_authorization
  cases hlk : ks.lookupKeys kid.1 kid.2 with
  | none => simp [hlk]
  | some kp =>
      cases htry : EscrowApi.tryPassphrases kp.private_key kid.2
          (none :: pps.map some) with
      | none => simp [hlk, htry]
      | some k => simp [hlk, htry]

/-- **C7.** On the base `EscrowApi`, whose authorization check always allows
decryption, no identifier is ever classified as `authorization_missing`. -/
theorem request_decryption_authorization_base_no_auth_missing (ks : KeyStorage)
    (ids : List (Nat × String)) (rm : String) (pps : List String) (hne : ids ≠ []) :
    ∃ r, EscrowApi.request_decryption_authorization EscrowApi.check_keypair_authorization ks
        ids rm pps = .ok r
      ∧ r.keypair_statuses.authorization_missing = [] := by
  unfold EscrowApi.request_decryption_authorization
  rw [if_neg (by simp only [List.isEmpty_iff]; exact hne)]
  rw [classify_keypairs_eq_filters EscrowApi.check_keypair_authorization ks pps ids
    (fun kid _ => Or.inl rfl) ⟨[], [], [], []⟩]
  refine ⟨_, rfl, ?_⟩
  simp only [List.nil_append]
  exact List.filter_eq_nil_iff.mpr
    (fun kid _ => by simp [spec_keypair_status_base_ne_auth ks pps kid])

/-- Witness for C7: a singleton request on the empty keystore yields an empty
`authorization_missing` list. -/
theorem request_decryption_authorization_base_no_auth_missing_witness :
    ∃ r, EscrowApi.request_decryption_authorization EscrowApi.check_keypair_authorization
        ⟨[], []⟩ [(3, "RSA_OAEP")] "reason" [] = .ok r
      ∧ r.keypair_statuses.authorization_missing = [] :=
  request_decryption_authorization_base_no_auth_missing ⟨[], []⟩ [(3, "RSA_OAEP")]
    "reason" [] (by decide)

/-- **C8.** Every successful `request_decryption_authorization` result partitions its
input: the four status lists' lengths sum to the number of identifiers and every
identifier occurs with the same multiplicity in the input and across the lists;
`has_errors` holds exactly when fewer identifiers were accepted than supplied; and
`response_message` is the denied/accepted string according to `has_errors`. -/
theorem request_decryption_authorization_partitions
    (authCheck : Nat → String → Except WAErr Unit) (ks : KeyStorage)
    (ids : List (Nat × String)) (rm : String) (pps : List String) (r : AuthRequestResult)
    (h : EscrowApi.request_decryption_authorization authCheck ks ids rm pps = .ok r) :
    (r.keypair_statuses.missing_private_key.length
        + r.keypair_statuses.authorization_missing.length
        + r.keypair_statuses.missing_passphrase.length
        + r.keypair_statuses.accepted.length = ids.length)
    ∧ (∀ x : Nat × String,
        r.keypair_statuses.missing_private_key.count x
          + r.keypair_statuses.authorization_missing.count x
          + r.keypair_statuses.missing_passphrase.count x
          + r.keypair_statuses.accepted.count x = ids.count x)
    ∧ (r.has_errors = true ↔ r.keypair_statuses.accepted.length < ids.length)
    ∧ (r.has_errors = true → r.response_message = "Decryption request denied")
    ∧ (r.has_errors = false → r.response_message = "Decryption request accepted") := by
  unfold EscrowApi.request_decryption_authorization at h
  split at h
  · exact absurd h (by simp)
  · split at h
    · exact absurd h (by simp)
    · rename_i statuses hcl
      rw [Except.ok.injEq] at h
      subst h
      obtain ⟨hlen, hcnt⟩ :=
        classify_keypairs_ok_counts authCheck ks pps ids ⟨[], [], [], []⟩ statuses hcl
      refine ⟨?_, ?_, ?_, ?_, ?_⟩
      · simpa using hlen
      · intro x
        simpa using hcnt x
      · simp
      · intro htrue
        simp only [decide_eq_true_eq] at htrue
        simp [htrue]
      · intro hfalse
        simp only [decide_eq_false_iff_not] at hfalse
        simp [hfalse]


/-- Witness for C8: a concrete two-identifier request on `wksD` partitions its input. -/
theorem request_decryption_authorization_partitions_witness :
    (warD.keypair_statuses.missing_private_key.length
        + warD.keypair_statuses.authorization_missing.length
        + warD.keypair_statuses.missing_passphrase.length
        + warD.keypair_statuses.accepted.length
      = ([(1, "RSA_OAEP"), (2, "RSA_OAEP")] : List (Nat × String)).length)
    ∧ (∀ x : Nat × String,
        warD.keypair_statuses.missing_private_key.count x
          + warD.keypair_statuses.authorization_missing.count x
          + warD.keypair_statuses.missing_passphrase.count x
          + warD.keypair_statuses.accepted.count x
        = ([(1, "RSA_OAEP"), (2, "RSA_OAEP")] : List (Nat × String)).count x)
    ∧ (warD.has_errors = true
        ↔ warD.keypair_statuses.accepted.length
            < ([(1, "RSA_OAEP"), (2, "RSA_OAEP")] : List (Nat × String)).length)
    ∧ (warD.has_errors = true → warD.response_message = "Decryption request denied")
    ∧ (warD.has_errors = false → warD.response_message = "Decryption request accepted") :=
  request_decryption_authorization_partitions EscrowApi.check_keypair_authorization wksD
    [(1, "RSA_OAEP"), (2, "RSA_OAEP")] "please" [] warD (by rfl)

/-- **C9.** `request_decryption_authorization` rejects an empty identifier list with
`ValueError`, for every authorization policy, keystore, request message and
passphrase list.  The guard precedes the classification loop, and the embedded
function is read-only on the keystore, so no keystore access or state change
occurs. -/
theorem request_decryption_authorization_empty_rejected
    (authCheck : Nat → String → Except WAErr Unit) (ks : KeyStorage) (rm : String)
    (pps : List String) :
    EscrowApi.request_decryption_authorization authCheck ks [] rm pps
      = .error (.valueError
          "Keypair identifiers must not be empty, when requesting decryption authorization") :=
  rfl

/-- Witness for C5: on an empty keystore with algos `[RSA_OAEP, DSA_DSS]` and room
for one free key per algo, the generator selects the lexicographically smallest
algo of count zero. -/
theorem generate_free_keypair_least_provisioned_witness :
    ∃ m : Nat × String,
      m.2 ∈ ["RSA_OAEP", "DSA_DSS"]
      ∧ m.1 = (⟨[], []⟩ : KeyStorage).get_free_keypairs_count m.2
      ∧ (∀ b ∈ ["RSA_OAEP", "DSA_DSS"],
          tleP m ((⟨[], []⟩ : KeyStorage).get_free_keypairs_count b, b))
      ∧ (1 ≤ m.1 →
          generate_free_keypair_for_least_provisioned_key_algo ⟨[], []⟩ 1
            ["RSA_OAEP", "DSA_DSS"] = (false, ⟨[], []⟩))
      ∧ (m.1 < 1 →
          generate_free_keypair_for_least_provisioned_key_algo ⟨[], []⟩ 1
              ["RSA_OAEP", "DSA_DSS"]
            = (true,
               { keys := ([] : List ((Nat × String) × AsymKeypair))
                 free_keypairs := [] ++ [(m.2, generate_keypair m.2 none)] })
          ∧ (∀ b, (({ keys := ([] : List ((Nat × String) × AsymKeypair))
                      free_keypairs := [] ++ [(m.2, generate_keypair m.2 none)] } :
                KeyStorage).get_free_keypairs_count b)
              = if b = m.2 then (⟨[], []⟩ : KeyStorage).get_free_keypairs_count b + 1
                else (⟨[], []⟩ : KeyStorage).get_free_keypairs_count b)) :=
  generate_free_keypair_least_provisioned ⟨[], []⟩ 1 ["RSA_OAEP", "DSA_DSS"] (by decide)
